import Mathlib

/-!
Shallow embedding of the credential-manager vault core
(src/app/security.py, src/app/vault.py, src/app/models.py, and the
vault-creation endpoint of src/app/main.py) together with theorems
settling the specification claims about it.

Modelling conventions:
* time is `Nat` (seconds); each Python operation reads the clock through a
  single `now` parameter;
* PBKDF2 key derivation is modelled as the injective pairing of password
  and salt (`FKey`), bcrypt as an ideal hash pairing password and bcrypt
  salt (`BHash`), and Fernet as an ideal authenticated cipher: an
  `EncData` value is either a ciphertext tagged with the key that
  produced it, or garbage (`corrupt`) covering tampered/undecodable
  ciphertext, so decryption succeeds exactly on a matching key;
* Python dicts of credentials are association lists in insertion order;
* Python exceptions swallowed by `try/except` blocks are `Option`
  failures threaded through the same control flow as the source.
-/

namespace CredMgr

/-- Constant `max_attempts` of `SecurityManager.__init__`. -/
def max_attempts : Nat := 5

/-- Constant `lockout_duration` (seconds) of `SecurityManager.__init__`. -/
def lockout_duration : Nat := 300

/-- Constant `session_timeout` (seconds) of `SecurityManager.__init__`. -/
def session_timeout : Nat := 300

/-- Fernet key derived by `derive_key(password, salt)`: PBKDF2 is
deterministic and collision-free on (password, salt), modelled as the pair
itself. -/
structure FKey where
  password : String
  salt : Nat
deriving DecidableEq, Repr

/-- A bcrypt hash produced by `hash_master_password`: an ideal salted hash,
modelled as the hashed password together with the bcrypt salt. -/
structure BHash where
  password : String
  bsalt : Nat
deriving DecidableEq, Repr

/-- Embedding of `bcrypt.hashpw` of `hash_master_password`. -/
def hash_master_password (password : String) (bsalt : Nat) : BHash :=
  ⟨password, bsalt⟩

/-- Embedding of `bcrypt.checkpw` of `verify_master_password`: an ideal hash check
succeeds exactly when the password matches the hashed one. -/
def verify_master_password (password : String) (hashed : BHash) : Bool :=
  password == hashed.password

/-- Embedding of `derive_key(password, salt)` (PBKDF2, deterministic). -/
def derive_key (password : String) (salt : Nat) : FKey :=
  ⟨password, salt⟩

/-- Embedding of `Credential` model of src/app/models.py. -/
structure Credential where
  id : String
  service_name : String
  username : String
  password : String
  notes : Option String
  created_at : Nat
  updated_at : Nat
  tags : List String
deriving DecidableEq, Repr

/-- Embedding of `CredentialCreate` model of src/app/models.py. -/
structure CredentialCreate where
  service_name : String
  username : String
  password : String
  notes : Option String
  tags : List String
deriving DecidableEq, Repr

/-- Embedding of `CredentialUpdate` model of src/app/models.py: every field optional;
`none` means the field was not supplied (pydantic `exclude_unset`).
`notes` distinguishes "unset" from "explicitly set to null". -/
structure CredentialUpdate where
  service_name : Option String
  username : Option String
  password : Option String
  notes : Option (Option String)
  tags : Option (List String)
deriving DecidableEq, Repr

/-- The `CredentialUpdate` supplying no fields at all. -/
def emptyUpdate : CredentialUpdate :=
  ⟨none, none, none, none, none⟩

/-- The credential map serialized into the encrypted blob:
a Python dict `{id: Credential}` in insertion order. -/
abbrev CredMap := List (String × Credential)

/-- Python `dict` lookup `credentials.get(cred_id)`. -/
def dictGet (m : CredMap) (k : String) : Option Credential :=
  match m with
  | [] => none
  | (k₂, v) :: rest => if k = k₂ then some v else dictGet rest k

/-- Python `dict` assignment `credentials[cred_id] = credential`:
replaces in place when the key exists, appends otherwise. -/
def dictSet (m : CredMap) (k : String) (v : Credential) : CredMap :=
  match m with
  | [] => [(k, v)]
  | (k₂, v₂) :: rest =>
    if k = k₂ then (k₂, v) :: rest else (k₂, v₂) :: dictSet rest k v

/-- Python `del credentials[cred_id]`. -/
def dictDel (m : CredMap) (k : String) : CredMap :=
  match m with
  | [] => []
  | (k₂, v₂) :: rest =>
    if k = k₂ then rest else (k₂, v₂) :: dictDel rest k

/-- Python `cred_id in credentials`. -/
def dictHas (m : CredMap) (k : String) : Bool :=
  (dictGet m k).isSome

/-- Python `list(credentials.values())` / `credentials.values()` order. -/
def dictValues (m : CredMap) : List Credential :=
  m.map (·.2)

/-- The vault-file `credentials` field: Fernet ciphertext of the
JSON-serialized credential map, or undecryptable garbage. -/
inductive EncData where
  | blob (key : FKey) (content : CredMap)
  | corrupt
deriving DecidableEq, Repr

/-- Ideal Fernet decryption of the vault blob: succeeds exactly when the
key matches; `corrupt` covers invalid base64/token/JSON, which the source
turns into an exception caught by the caller. -/
def fernet_decrypt (key : FKey) (d : EncData) : Option CredMap :=
  match d with
  | .blob k c => if k = key then some c else none
  | .corrupt => none

/-- Vault metadata (`vault_metadata` dict written by `create_vault`). -/
structure VaultMetadata where
  salt : Nat
  master_hash : BHash
  created_at : Nat
deriving DecidableEq, Repr

/-- The persisted vault file (`vault_data` dict: metadata + credentials). -/
structure VaultFile where
  metadata : VaultMetadata
  credentials : EncData
deriving DecidableEq, Repr

/-- In-memory state of `SecurityManager`. -/
structure SecState where
  session_key : Option FKey
  last_activity : Nat
  failed_attempts : Nat
  lockout_until : Nat
deriving DecidableEq, Repr

/-- Embedding of `SecurityManager.__init__` state (clock reading `now` for
`last_activity`). -/
def SecState.init (now : Nat) : SecState :=
  ⟨none, now, 0, 0⟩

/-- Embedding of `SecurityManager.is_locked_out`: `time.time() < self.lockout_until`. -/
def is_locked_out (s : SecState) (now : Nat) : Bool :=
  now < s.lockout_until

/-- Embedding of `SecurityManager.record_failed_attempt`. -/
def record_failed_attempt (s : SecState) (now : Nat) : SecState :=
  let fa := s.failed_attempts + 1
  { s with
    failed_attempts := fa
    lockout_until :=
      if max_attempts ≤ fa then now + lockout_duration else s.lockout_until }

/-- Embedding of `SecurityManager.reset_failed_attempts`. -/
def reset_failed_attempts (s : SecState) : SecState :=
  { s with failed_attempts := 0, lockout_until := 0 }

/-- Embedding of `SecurityManager.is_session_valid`: no key, or idle past
`session_timeout`, invalidates (clearing the key as a side effect). -/
def is_session_valid (s : SecState) (now : Nat) : Bool × SecState :=
  match s.session_key with
  | none => (false, s)
  | some _ =>
    if session_timeout < now - s.last_activity then
      (false, { s with session_key := none })
    else (true, s)

/-- Embedding of `SecurityManager.update_activity`. -/
def update_activity (s : SecState) (now : Nat) : SecState :=
  { s with last_activity := now }

/-- Embedding of `SecurityManager.authenticate(master_password)`; the vault file stands
in for `load_vault_metadata()` (`none` = missing/unreadable file). -/
def sm_authenticate (s : SecState) (file : Option VaultFile)
    (master_password : String) (now : Nat) : Bool × SecState :=
  if is_locked_out s now then (false, s)
  else
    match file with
    | none => (false, s)
    | some vf =>
      if verify_master_password master_password vf.metadata.master_hash then
        let s₁ := { s with
          session_key := some (derive_key master_password vf.metadata.salt) }
        let s₂ := reset_failed_attempts s₁
        (true, update_activity s₂ now)
      else
        (false, record_failed_attempt s now)

/-- Embedding of `SecurityManager.create_vault(master_password)`: generates salt and
verifier, encrypts an empty credential map, and writes the file
unconditionally (no existence check in the source). `salt`/`bsalt` stand
for the fresh randomness. -/
def sm_create_vault (_file : Option VaultFile) (master_password : String)
    (salt bsalt now : Nat) : Bool × Option VaultFile :=
  let master_hash := hash_master_password master_password bsalt
  let key := derive_key master_password salt
  let newFile : VaultFile :=
    { metadata := ⟨salt, master_hash, now⟩
      credentials := .blob key ∅ }
  (true, some newFile)

/-- Embedding of `SecurityManager.encrypt_data`: requires a valid session, encrypts
under the session key. -/
def encrypt_data (s : SecState) (m : CredMap) (now : Nat) :
    Option EncData × SecState :=
  match is_session_valid s now with
  | (false, s₁) => (none, s₁)
  | (true, s₁) =>
    match s₁.session_key with
    | none => (none, s₁)
    | some k => (some (.blob k m), s₁)

/-- Embedding of `SecurityManager.decrypt_data`: requires a valid session; any
decryption error is caught and becomes `none`. -/
def decrypt_data (s : SecState) (d : EncData) (now : Nat) :
    Option CredMap × SecState :=
  match is_session_valid s now with
  | (false, s₁) => (none, s₁)
  | (true, s₁) =>
    match s₁.session_key with
    | none => (none, s₁)
    | some k => (fernet_decrypt k d, s₁)

/-- Embedding of `SecurityManager.logout`. -/
def sm_logout (s : SecState) : SecState :=
  { s with session_key := none, last_activity := 0 }

/-! ### Sharing tokens (`generate_sharing_token` / `decrypt_sharing_token`) -/

/-- The shareable credential fields placed in a sharing token
(`share_data` of `CredentialVault.generate_sharing_token`). -/
structure ShareData where
  service_name : String
  username : String
  password : String
  notes : Option String
deriving DecidableEq, Repr

/-- Embedding of the `token_data` dict encrypted inside a sharing token. -/
structure TokenData where
  credential : ShareData
  expires_at : Nat
  token_id : Nat
deriving DecidableEq, Repr

/-- Fernet ciphertext of a `token_data` under a one-off key;
`corrupt` covers undecryptable/garbage ciphertext. -/
inductive SCipher where
  | enc (key : Nat) (data : TokenData)
  | corrupt
deriving DecidableEq, Repr

/-- A received sharing-token string after base64/JSON decoding:
either the `{key, token}` package, or `garbage` (any string whose outer
decode, JSON parse, field access or inner base64 decode raises — all
caught by the source's `except`). -/
inductive TokenWire where
  | wire (key : Nat) (token : SCipher)
  | garbage
deriving DecidableEq, Repr

/-- Ideal Fernet decryption of a sharing-token ciphertext. -/
def sfernet_decrypt (key : Nat) (ct : SCipher) : Option TokenData :=
  match ct with
  | .enc k td => if k = key then some td else none
  | .corrupt => none

/-- Embedding of `SecurityManager.generate_sharing_token(credential_data, expires_in)`;
`temp_key` and `token_id` stand for the fresh randomness. -/
def sm_generate_sharing_token (credential_data : ShareData)
    (expires_in now temp_key token_id : Nat) : TokenWire :=
  .wire temp_key (.enc temp_key ⟨credential_data, now + expires_in, token_id⟩)

/-- Embedding of `SecurityManager.decrypt_sharing_token(token)`: decode, split key and
ciphertext, decrypt, reject expired tokens; every failure inside the
`try` block is caught and becomes `none`. -/
def sm_decrypt_sharing_token (token : TokenWire) (now : Nat) :
    Option ShareData :=
  match token with
  | .garbage => none
  | .wire k ct =>
    match sfernet_decrypt k ct with
    | none => none
    | some token_data =>
      if token_data.expires_at < now then none
      else some token_data.credential

/-! ### Audit trail and `CredentialVault` -/

/-- A value in an audit-log `details` map. -/
inductive DVal where
  | s (v : String)
  | b (v : Bool)
  | n (v : Nat)
  | os (v : Option String)
  | ol (v : Option (List String))
  | ls (v : List String)
deriving DecidableEq, Repr

/-- Embedding of `AuditLog` model of src/app/models.py. -/
structure AuditLog where
  timestamp : Nat
  action : String
  credential_id : Option String
  details : Option (List (String × DVal))
deriving DecidableEq, Repr

/-- Audit-trail capacity (`1000` in `CredentialVault._log_action`). -/
def audit_cap : Nat := 1000

/-- Embedding of `CredentialVault._log_action`: append, then keep only the last
`audit_cap` entries (`self.audit_logs[-1000:]`). -/
def log_action (logs : List AuditLog) (e : AuditLog) : List AuditLog :=
  let l := logs ++ [e]
  if audit_cap < l.length then l.drop (l.length - audit_cap) else l

/-- In-memory state of `CredentialVault` (the vault file, the embedded
`SecurityManager`, and the audit trail). -/
structure VaultState where
  file : Option VaultFile
  sec : SecState
  audit_logs : List AuditLog
deriving DecidableEq, Repr

/-- Embedding of `CredentialVault.vault_exists`. -/
def vault_exists (st : VaultState) : Bool :=
  st.file.isSome

/-- Embedding of `CredentialVault.create_vault`: delegates to
`SecurityManager.create_vault`. -/
def cv_create_vault (st : VaultState) (master_password : String)
    (salt bsalt now : Nat) : Bool × VaultState :=
  let (ok, f) := sm_create_vault st.file master_password salt bsalt now
  (ok, { st with file := f })

/-- Embedding of `CredentialVault.authenticate`: delegates and logs a LOGIN entry. -/
def cv_authenticate (st : VaultState) (master_password : String)
    (now : Nat) : Bool × VaultState :=
  let (ok, s₁) := sm_authenticate st.sec st.file master_password now
  let logs := log_action st.audit_logs
    ⟨now, "LOGIN", none, some [("success", .b ok)]⟩
  (ok, { st with sec := s₁, audit_logs := logs })

/-- Field update loop of `CredentialVault.update_credential`
(`setattr` over `update_data.dict(exclude_unset=True)`). -/
def apply_update (c : Credential) (u : CredentialUpdate) : Credential :=
  { c with
    service_name := u.service_name.getD c.service_name
    username := u.username.getD c.username
    password := u.password.getD c.password
    notes := u.notes.getD c.notes
    tags := u.tags.getD c.tags }

/-- Keys of `update_data.dict(exclude_unset=True)` (for the audit entry). -/
def updatedFields (u : CredentialUpdate) : List String :=
  (if u.service_name.isSome then ["service_name"] else []) ++
  (if u.username.isSome then ["username"] else []) ++
  (if u.password.isSome then ["password"] else []) ++
  (if u.notes.isSome then ["notes"] else []) ++
  (if u.tags.isSome then ["tags"] else [])

/-- The VIEW_CREDENTIAL audit entry of `get_credential`. -/
def viewEntry (credential_id : String) (c : Credential) (now : Nat) :
    AuditLog :=
  ⟨now, "VIEW_CREDENTIAL", some credential_id,
    some [("service_name", .s c.service_name)]⟩

/-- The ADD_CREDENTIAL audit entry of `add_credential`. -/
def addEntry (credential_data : CredentialCreate) (newId : String)
    (now : Nat) : AuditLog :=
  ⟨now, "ADD_CREDENTIAL", some newId,
    some [("service_name", .s credential_data.service_name)]⟩

/-- The UPDATE_CREDENTIAL audit entry of `update_credential`. -/
def updateEntry (credential_id : String) (c : Credential)
    (u : CredentialUpdate) (now : Nat) : AuditLog :=
  ⟨now, "UPDATE_CREDENTIAL", some credential_id,
    some [("service_name", .s c.service_name),
      ("updated_fields", .ls (updatedFields u))]⟩

/-- The DELETE_CREDENTIAL audit entry of `delete_credential`. -/
def deleteEntry (credential_id : String) (c : Credential) (now : Nat) :
    AuditLog :=
  ⟨now, "DELETE_CREDENTIAL", some credential_id,
    some [("service_name", .s c.service_name)]⟩

/-- The SEARCH_CREDENTIALS audit entry of `search_credentials`. -/
def searchEntry (query : Option String) (tags : Option (List String))
    (results_count now : Nat) : AuditLog :=
  ⟨now, "SEARCH_CREDENTIALS", none,
    some [("query", .os query), ("tags", .ol tags),
      ("results_count", .n results_count)]⟩

/-- Embedding of `Credential(id=credential_id, **credential_data.dict())` with the
pydantic timestamp defaults, as built by `add_credential`. -/
def mkAdded (credential_data : CredentialCreate) (newId : String)
    (now : Nat) : Credential :=
  ⟨newId, credential_data.service_name, credential_data.username,
    credential_data.password, credential_data.notes, now, now,
    credential_data.tags⟩

/-- Embedding of `CredentialVault._load_credentials`: authentication gate, file read,
decryption; every failure (missing file, undecryptable blob, bad JSON)
yields the empty map. -/
def load_credentials (st : VaultState) (now : Nat) : CredMap × VaultState :=
  match is_session_valid st.sec now with
  | (false, s₁) => (∅, { st with sec := s₁ })
  | (true, s₁) =>
    match st.file with
    | none => (∅, { st with sec := s₁ })
    | some vf =>
      match decrypt_data s₁ vf.credentials now with
      | (none, s₂) => (∅, { st with sec := s₂ })
      | (some m, s₂) => (m, { st with sec := update_activity s₂ now })

/-- Embedding of `CredentialVault._save_credentials`: authentication gate, encryption,
read-modify-write of the vault file. -/
def save_credentials (st : VaultState) (m : CredMap) (now : Nat) :
    Bool × VaultState :=
  match is_session_valid st.sec now with
  | (false, s₁) => (false, { st with sec := s₁ })
  | (true, s₁) =>
    match encrypt_data s₁ m now with
    | (none, s₂) => (false, { st with sec := s₂ })
    | (some e, s₂) =>
      match st.file with
      | none => (false, { st with sec := s₂ })
      | some vf =>
        (true, { st with
          file := some { vf with credentials := e }
          sec := update_activity s₂ now })

/-- Embedding of `CredentialVault.add_credential`; `newId` stands for `uuid.uuid4()`.
`created_at`/`updated_at` take their pydantic defaults (`time.time`). -/
def add_credential (st : VaultState) (credential_data : CredentialCreate)
    (newId : String) (now : Nat) : Option String × VaultState :=
  match is_session_valid st.sec now with
  | (false, s₁) => (none, { st with sec := s₁ })
  | (true, s₁) =>
    let st₁ := { st with sec := s₁ }
    let (creds, st₂) := load_credentials st₁ now
    let credential := mkAdded credential_data newId now
    let (ok, st₃) := save_credentials st₂ (dictSet creds newId credential) now
    if ok then
      let logs₂ :=
        log_action st₃.audit_logs (addEntry credential_data newId now)
      (some newId, { st₃ with audit_logs := logs₂ })
    else (none, st₃)

/-- Embedding of `CredentialVault.get_credential`: logs a VIEW_CREDENTIAL entry only
when the credential is found. -/
def get_credential (st : VaultState) (credential_id : String) (now : Nat) :
    Option Credential × VaultState :=
  match is_session_valid st.sec now with
  | (false, s₁) => (none, { st with sec := s₁ })
  | (true, s₁) =>
    let st₁ := { st with sec := s₁ }
    let (creds, st₂) := load_credentials st₁ now
    match dictGet creds credential_id with
    | some credential =>
      let logs₂ :=
        log_action st₂.audit_logs (viewEntry credential_id credential now)
      (some credential, { st₂ with audit_logs := logs₂ })
    | none => (none, st₂)

/-- Embedding of `CredentialVault.update_credential`: silently returns `False` on an
unknown id, otherwise applies the supplied fields, bumps `updated_at`,
persists and logs. -/
def update_credential (st : VaultState) (credential_id : String)
    (update_data : CredentialUpdate) (now : Nat) : Bool × VaultState :=
  match is_session_valid st.sec now with
  | (false, s₁) => (false, { st with sec := s₁ })
  | (true, s₁) =>
    let st₁ := { st with sec := s₁ }
    let (creds, st₂) := load_credentials st₁ now
    match dictGet creds credential_id with
    | none => (false, st₂)
    | some credential =>
      let credential₁ :=
        { apply_update credential update_data with updated_at := now }
      let (ok, st₃) :=
        save_credentials st₂ (dictSet creds credential_id credential₁) now
      if ok then
        let logs₂ := log_action st₃.audit_logs
          (updateEntry credential_id credential₁ update_data now)
        (true, { st₃ with audit_logs := logs₂ })
      else (false, st₃)

/-- Embedding of `CredentialVault.delete_credential`: silently returns `False` on an
unknown id, otherwise removes, persists and logs. -/
def delete_credential (st : VaultState) (credential_id : String)
    (now : Nat) : Bool × VaultState :=
  match is_session_valid st.sec now with
  | (false, s₁) => (false, { st with sec := s₁ })
  | (true, s₁) =>
    let st₁ := { st with sec := s₁ }
    let (creds, st₂) := load_credentials st₁ now
    match dictGet creds credential_id with
    | none => (false, st₂)
    | some credential =>
      let (ok, st₃) :=
        save_credentials st₂ (dictDel creds credential_id) now
      if ok then
        let logs₂ := log_action st₃.audit_logs
          (deleteEntry credential_id credential now)
        (true, { st₃ with audit_logs := logs₂ })
      else (false, st₃)

/-- Python substring containment `pat in hay` on character lists. -/
def listInfix (pat : List Char) : List Char → Bool
  | [] => pat.isEmpty
  | c :: rest => pat.isPrefixOf (c :: rest) || listInfix pat rest

/-- Python `pat in hay` on strings. -/
def strContains (hay pat : String) : Bool :=
  listInfix pat.data hay.data

/-- The per-record filter of `CredentialVault.search_credentials`,
mirroring Python truthiness: an empty query string or empty tags list is
falsy and disables its filter; a `None`/empty `notes` never matches. -/
def search_match (credential : Credential) (query : Option String)
    (tags : Option (List String)) : Bool :=
  let m₁ : Bool :=
    match query with
    | none => true
    | some q =>
      if q = "" then true
      else
        let ql := q.toLower
        strContains credential.service_name.toLower ql ||
        strContains credential.username.toLower ql ||
        (match credential.notes with
         | none => false
         | some nt => if nt = "" then false else strContains nt.toLower ql)
  if m₁ then
    match tags with
    | none => true
    | some ts =>
      if ts = [] then true
      else ts.any (fun tag => credential.tags.contains tag)
  else false

/-- Embedding of `CredentialVault.search_credentials(query, tags)`. -/
def search_credentials (st : VaultState) (query : Option String)
    (tags : Option (List String)) (now : Nat) :
    List Credential × VaultState :=
  match is_session_valid st.sec now with
  | (false, s₁) => ([], { st with sec := s₁ })
  | (true, s₁) =>
    let st₁ := { st with sec := s₁ }
    let (creds, st₂) := load_credentials st₁ now
    let results :=
      (dictValues creds).filter (fun c => search_match c query tags)
    let logs₂ := log_action st₂.audit_logs
      (searchEntry query tags results.length now)
    (results, { st₂ with audit_logs := logs₂ })

/-! ### The vault-creation HTTP endpoint (src/app/main.py) -/

/-- Result of `POST /api/vault/create`. -/
inductive ApiCreateResult where
  | created
  | alreadyExists
  | passwordTooShort
  | serverError
deriving DecidableEq, Repr

/-- The `create_vault` endpoint of src/app/main.py: rejects when a vault
already exists or the password is shorter than 8 characters, otherwise
delegates to `CredentialVault.create_vault`. -/
def api_create_vault (st : VaultState) (master_password : String)
    (salt bsalt now : Nat) : ApiCreateResult × VaultState :=
  if vault_exists st then (.alreadyExists, st)
  else if master_password.length < 8 then (.passwordTooShort, st)
  else
    let (ok, st₁) := cv_create_vault st master_password salt bsalt now
    if ok then (.created, st₁) else (.serverError, st₁)

/-! ### Helper lemmas -/

theorem is_session_valid_of_true {s : SecState} {now : Nat}
    (h : (is_session_valid s now).1 = true) :
    is_session_valid s now = (true, s) := by
  obtain ⟨key, la, fa, lu⟩ := s
  cases key with
  | none => simp [is_session_valid] at h
  | some k =>
    by_cases ht : session_timeout < now - la
    · simp [is_session_valid, ht] at h
    · simp [is_session_valid, ht]

theorem is_session_valid_touch {s : SecState} {k : FKey} (now : Nat)
    (hk : s.session_key = some k) :
    is_session_valid (update_activity s now) now =
      (true, update_activity s now) := by
  unfold is_session_valid update_activity
  simp [hk]

theorem decrypt_data_ok {s : SecState} {k : FKey} {now : Nat} (d : EncData)
    (hv : (is_session_valid s now).1 = true) (hk : s.session_key = some k) :
    decrypt_data s d now = (fernet_decrypt k d, s) := by
  unfold decrypt_data
  rw [is_session_valid_of_true hv]
  simp [hk]

theorem encrypt_data_ok {s : SecState} {k : FKey} {now : Nat} (m : CredMap)
    (hv : (is_session_valid s now).1 = true) (hk : s.session_key = some k) :
    encrypt_data s m now = (some (.blob k m), s) := by
  unfold encrypt_data
  rw [is_session_valid_of_true hv]
  simp [hk]

/-! ### C5: sharing-token redemption is total and enforces expiry -/

/-- C5: for every input token, however malformed,
`decrypt_sharing_token` returns a payload or `None` and never raises; and
when decryption succeeds but `now > expires_at`, it returns `None`. -/
theorem redeem_total_and_expiry :
    (∀ (token : TokenWire) (now : Nat),
      sm_decrypt_sharing_token token now = none ∨
      ∃ p, sm_decrypt_sharing_token token now = some p) ∧
    (∀ (k : Nat) (ct : SCipher) (td : TokenData) (now : Nat),
      sfernet_decrypt k ct = some td → td.expires_at < now →
      sm_decrypt_sharing_token (.wire k ct) now = none) := by
  constructor
  · intro token now
    cases token with
    | garbage => exact Or.inl rfl
    | wire k ct =>
      cases h : sfernet_decrypt k ct with
      | none => exact Or.inl (by simp [sm_decrypt_sharing_token, h])
      | some td =>
        by_cases hexp : td.expires_at < now
        · exact Or.inl (by simp [sm_decrypt_sharing_token, h, hexp])
        · exact Or.inr
            ⟨td.credential, by simp [sm_decrypt_sharing_token, h, hexp]⟩
  · intro k ct td now hd hexp
    simp [sm_decrypt_sharing_token, hd, hexp]

/-- Witness for `redeem_total_and_expiry`: a concrete well-formed token
whose embedded expiry (5) has passed (now = 6) redeems to `None`. -/
theorem redeem_total_and_expiry_witness :
    sm_decrypt_sharing_token
      (.wire 7 (.enc 7 ⟨⟨"svc", "alice", "pw", none⟩, 5, 1⟩)) 6 = none :=
  redeem_total_and_expiry.2 7 (.enc 7 ⟨⟨"svc", "alice", "pw", none⟩, 5, 1⟩)
    ⟨⟨"svc", "alice", "pw", none⟩, 5, 1⟩ 6 (by simp [sfernet_decrypt])
    (by decide)

/-! ### C8: audit-trail capacity and FIFO eviction -/

theorem log_action_length_le (logs : List AuditLog) (e : AuditLog) :
    (log_action logs e).length ≤ audit_cap := by
  simp only [log_action, audit_cap]
  split
  next hc =>
    simp only [List.length_drop]
    omega
  next hc =>
    omega

theorem log_action_drop (l : List AuditLog) (e : AuditLog) :
    log_action (l.drop (l.length - audit_cap)) e =
      (l ++ [e]).drop ((l ++ [e]).length - audit_cap) := by
  simp only [log_action, audit_cap, List.length_append, List.length_cons,
    List.length_nil, List.length_drop]
  by_cases hn : l.length < 1000
  · have h₀ : l.length - 1000 = 0 := by omega
    rw [h₀, List.drop_zero]
    split
    next hc => exact absurd hc (by omega)
    next hc =>
      have h₁ : l.length + (0 + 1) - 1000 = 0 := by omega
      rw [h₁, List.drop_zero]
  · have hmin : l.length - (l.length - 1000) = 1000 := by omega
    rw [hmin]
    split
    next hc =>
      have hamt : 1000 + (0 + 1) - 1000 = 1 := by omega
      rw [hamt]
      rw [List.drop_append_of_le_length
        (show 1 ≤ (List.drop (l.length - 1000) l).length by
          rw [List.length_drop]; omega)]
      rw [List.drop_drop]
      rw [List.drop_append_of_le_length
        (show l.length + (0 + 1) - 1000 ≤ l.length by omega)]
      have harith :
          l.length - 1000 + 1 = l.length + (0 + 1) - 1000 := by
        omega
      rw [harith]
    next hc => exact absurd (by omega : 1000 < 1000 + (0 + 1)) hc

theorem foldl_log_action_drop (es : List AuditLog) :
    List.foldl log_action [] es = es.drop (es.length - audit_cap) := by
  induction es using List.reverseRecOn with
  | nil => simp
  | append_singleton l e ih =>
    rw [List.foldl_append]
    simp only [List.foldl_cons, List.foldl_nil]
    rw [ih, log_action_drop]

/-- C8: the audit trail never exceeds its capacity of 1000 entries, and
eviction is FIFO: starting from the empty trail, appending a sequence of
entries leaves exactly the sequence with its oldest `length - 1000`
entries dropped (so after exceeding capacity by `k`, the oldest `k` are
absent and the newest 1000 — in particular the newest `k` — are
present). -/
theorem audit_trail_capacity_fifo :
    (∀ (logs : List AuditLog) (e : AuditLog),
      (log_action logs e).length ≤ audit_cap) ∧
    (∀ es : List AuditLog,
      List.foldl log_action [] es = es.drop (es.length - audit_cap)) :=
  ⟨log_action_length_le, foldl_log_action_drop⟩

/-! ### C2: lockout after `max_attempts` failures blocks even the
correct password until the cooldown elapses -/

/-- Runs `n` consecutive `SecurityManager.authenticate` calls with the same
password and clock reading, keeping only the state. -/
def authN : Nat → SecState → Option VaultFile → String → Nat → SecState
  | 0, s, _, _, _ => s
  | n + 1, s, file, pw, now =>
    authN n (sm_authenticate s file pw now).2 file pw now

/-- C2: from a fresh lockout state, `max_attempts` (= 5) consecutive
failed `authenticate` calls (wrong password, vault present) enter the
LOCKED state (`lockout_until = now + lockout_duration`); while locked,
every `authenticate` call — for every password, hence without consulting
the verifier — returns `False` and leaves the state unchanged; once the
cooldown has elapsed, a correct-password call succeeds again. -/
theorem lockout_after_max_failures (s₀ : SecState) (vf : VaultFile)
    (pw : String) (now : Nat)
    (hfa : s₀.failed_attempts = 0) (hlu : s₀.lockout_until = 0)
    (hwrong : verify_master_password pw vf.metadata.master_hash = false) :
    (authN max_attempts s₀ (some vf) pw now).lockout_until =
      now + lockout_duration ∧
    (∀ (pw₂ : String) (now₂ : Nat), now₂ < now + lockout_duration →
      is_locked_out (authN max_attempts s₀ (some vf) pw now) now₂ = true ∧
      sm_authenticate (authN max_attempts s₀ (some vf) pw now)
        (some vf) pw₂ now₂ =
        (false, authN max_attempts s₀ (some vf) pw now)) ∧
    (∀ (pw₃ : String) (now₃ : Nat), now + lockout_duration ≤ now₃ →
      verify_master_password pw₃ vf.metadata.master_hash = true →
      (sm_authenticate (authN max_attempts s₀ (some vf) pw now)
        (some vf) pw₃ now₃).1 = true) := by
  obtain ⟨key, la, fa, lu⟩ := s₀
  simp only at hfa hlu
  subst hfa hlu
  have hs : authN max_attempts ⟨key, la, 0, 0⟩ (some vf) pw now =
      ⟨key, la, 5, now + lockout_duration⟩ := by
    simp [authN, max_attempts, sm_authenticate, is_locked_out,
      record_failed_attempt, hwrong, lockout_duration]
  rw [hs]
  refine ⟨rfl, ?_, ?_⟩
  · intro pw₂ now₂ h₂
    constructor
    · simp [is_locked_out, h₂]
    · simp [sm_authenticate, is_locked_out, h₂]
  · intro pw₃ now₃ h₃ hok
    simp [sm_authenticate, is_locked_out, Nat.not_lt_of_le h₃, hok]

/-- Concrete vault file used by witnesses: salt 1, master password
"correct horse" hashed with bcrypt salt 2, empty encrypted blob. -/
def vf₀ : VaultFile :=
  ⟨⟨1, hash_master_password "correct horse" 2, 0⟩,
    .blob (derive_key "correct horse" 1) ∅⟩

/-- Witness for `lockout_after_max_failures`: five wrong-password calls
at time 10 from a fresh state lock the guard until 10 + 300, and a
correct-password call at time 100 still fails without changing the
state. -/
theorem lockout_after_max_failures_witness :
    (authN max_attempts (SecState.init 0) (some vf₀) "wrong" 10).lockout_until =
      10 + lockout_duration ∧
    sm_authenticate (authN max_attempts (SecState.init 0) (some vf₀)
      "wrong" 10) (some vf₀) "correct horse" 100 =
      (false, authN max_attempts (SecState.init 0) (some vf₀) "wrong" 10) := by
  have h := lockout_after_max_failures (SecState.init 0) vf₀ "wrong" 10
    rfl rfl (by decide)
  exact ⟨h.1, (h.2.1 "correct horse" 100 (by decide)).2⟩

/-! ### C9: lockout expiry does not reset the failure counter -/

/-- C9: in any state with `failed_attempts ≥ max_attempts` that is no
longer locked (the window elapsed), one more failed authentication
re-enters a full lockout (`lockout_until = now + lockout_duration`) and
returns `False`; and `failed_attempts` drops to 0 only on a successful
authentication. -/
theorem relock_after_window_and_reset_only_on_success (s : SecState)
    (vf : VaultFile) (pw : String) (now : Nat)
    (hfa : max_attempts ≤ s.failed_attempts)
    (hnl : s.lockout_until ≤ now)
    (hwrong : verify_master_password pw vf.metadata.master_hash = false) :
    (sm_authenticate s (some vf) pw now).1 = false ∧
    (sm_authenticate s (some vf) pw now).2.failed_attempts =
      s.failed_attempts + 1 ∧
    (sm_authenticate s (some vf) pw now).2.lockout_until =
      now + lockout_duration ∧
    (∀ (s₂ : SecState) (file : Option VaultFile) (pw₂ : String)
      (now₂ : Nat), s₂.failed_attempts ≠ 0 →
      (sm_authenticate s₂ file pw₂ now₂).2.failed_attempts = 0 →
      (sm_authenticate s₂ file pw₂ now₂).1 = true) := by
  have hlock : is_locked_out s now = false := by
    simp [is_locked_out, Nat.not_lt_of_le hnl]
  refine ⟨?_, ?_, ?_, ?_⟩
  · simp [sm_authenticate, hlock, hwrong]
  · simp [sm_authenticate, hlock, hwrong, record_failed_attempt]
  · have h5 : max_attempts ≤ s.failed_attempts + 1 := Nat.le_succ_of_le hfa
    simp [sm_authenticate, hlock, hwrong, record_failed_attempt, h5]
  · intro s₂ file pw₂ now₂ hne h0
    by_cases hl₂ : is_locked_out s₂ now₂
    · unfold sm_authenticate at h0
      rw [if_pos hl₂] at h0
      exact absurd h0 hne
    · cases file with
      | none =>
        unfold sm_authenticate at h0
        rw [if_neg hl₂] at h0
        exact absurd h0 hne
      | some vf₂ =>
        by_cases hok : verify_master_password pw₂ vf₂.metadata.master_hash
        · simp [sm_authenticate, hl₂, hok]
        · unfold sm_authenticate at h0
          rw [if_neg hl₂] at h0
          simp only [hok] at h0
          simp [record_failed_attempt] at h0

/-- Witness for `relock_after_window_and_reset_only_on_success`: a state
with 5 accumulated failures whose window ended at 310 ≤ now = 400; one
more wrong password relocks until 700. -/
theorem relock_after_window_witness :
    (sm_authenticate ⟨none, 0, 5, 310⟩ (some vf₀) "wrong" 400).1 = false ∧
    (sm_authenticate ⟨none, 0, 5, 310⟩
      (some vf₀) "wrong" 400).2.lockout_until = 400 + lockout_duration := by
  have h := relock_after_window_and_reset_only_on_success
    ⟨none, 0, 5, 310⟩ vf₀ "wrong" 400 (by decide) (by decide) (by decide)
  exact ⟨h.1, h.2.2.1⟩

/-! ### C1: vault creation and the existence check -/

/-- A vault state whose file already holds `vf₀`. -/
def stExisting : VaultState := ⟨some vf₀, SecState.init 0, []⟩

/-- The vault file written by `create_vault(pw)` with fresh randomness
`salt`/`bsalt` at time `now`: new metadata and a valid encrypted blob of
the empty credential map. -/
def freshVault (pw : String) (salt bsalt now : Nat) : VaultFile :=
  ⟨⟨salt, hash_master_password pw bsalt, now⟩,
    .blob (derive_key pw salt) ∅⟩

/-- Counterexample to C1: with a vault already present,
`CredentialVault.create_vault` (the core `create`) reports success — not
`AlreadyExists` — and replaces the stored vault, so the existing metadata
and blob are not left unchanged. -/
theorem create_vault_counterexample :
    (cv_create_vault stExisting "newpassword123" 9 9 50).1 = true ∧
    (cv_create_vault stExisting "newpassword123" 9 9 50).2.file ≠
      some vf₀ := by
  refine ⟨rfl, ?_⟩
  decide

/-- Amended C1: the core `create_vault` performs no existence check — for
every prior state it succeeds, regenerating salt, verifier and a valid
empty encrypted blob (one that decrypts to the empty map under the key
derived from the new password and salt) and overwriting any existing
vault; the `AlreadyExists` rejection that leaves an existing vault
untouched is enforced only by the HTTP create endpoint, which refuses
before calling `create_vault` whenever a vault exists. -/
theorem create_vault_overwrites_and_api_guards (st : VaultState)
    (pw : String) (salt bsalt now : Nat) :
    cv_create_vault st pw salt bsalt now =
      (true, { st with file := some (freshVault pw salt bsalt now) }) ∧
    fernet_decrypt (derive_key pw salt)
      (EncData.blob (derive_key pw salt) (∅ : CredMap)) =
      some (∅ : CredMap) ∧
    (vault_exists st = true →
      api_create_vault st pw salt bsalt now = (.alreadyExists, st)) := by
  refine ⟨rfl, by simp [fernet_decrypt], ?_⟩
  intro h
  simp [api_create_vault, h]

/-- Witness for `create_vault_overwrites_and_api_guards`: the HTTP
endpoint rejects creation over the existing vault `stExisting` and leaves
it unchanged. -/
theorem create_vault_overwrites_and_api_guards_witness :
    api_create_vault stExisting "newpassword123" 9 9 50 =
      (.alreadyExists, stExisting) :=
  (create_vault_overwrites_and_api_guards stExisting "newpassword123"
    9 9 50).2.2 rfl

/-! ### C3: decryption failure while loading credentials -/

theorem session_key_of_valid {s : SecState} {now : Nat}
    (h : (is_session_valid s now).1 = true) :
    ∃ k, s.session_key = some k := by
  obtain ⟨key, la, fa, lu⟩ := s
  cases key with
  | none => simp [is_session_valid] at h
  | some k => exact ⟨k, rfl⟩

/-- A session that has just authenticated with the master password of
`vf₀`. -/
def secLive : SecState := ⟨some (derive_key "correct horse" 1), 0, 0, 0⟩

/-- A vault state whose stored blob is undecryptable garbage, under a
live session. -/
def stCorrupt : VaultState :=
  ⟨some ⟨⟨1, hash_master_password "correct horse" 2, 0⟩, .corrupt⟩,
    secLive, []⟩

/-- The same live session over the intact empty vault `vf₀`. -/
def stEmptyVault : VaultState := ⟨some vf₀, secLive, []⟩

/-- Counterexample to C3: under a valid session, decryption of the
corrupt blob fails explicitly at the `decrypt_data` level, yet
`_load_credentials` returns the empty map — exactly what it returns for
the intact empty vault — so the caller cannot distinguish "could not
decrypt" from "no credentials". -/
theorem load_credentials_counterexample :
    (is_session_valid stCorrupt.sec 0).1 = true ∧
    (decrypt_data stCorrupt.sec EncData.corrupt 0).1 = none ∧
    (load_credentials stCorrupt 0).1 = (load_credentials stEmptyVault 0).1 := by
  refine ⟨by decide, by decide, by decide⟩

/-- Amended C3: under a valid session, when the stored blob cannot be
decrypted, `_load_credentials` never raises — it returns the empty
credential map with the state untouched, indistinguishable at its
interface from a vault holding no credentials (the lower-level
`decrypt_data` does surface the failure as `None`). -/
theorem load_credentials_on_decrypt_failure (st : VaultState)
    (vf : VaultFile) (now : Nat) (hf : st.file = some vf)
    (hv : (is_session_valid st.sec now).1 = true)
    (hd : (decrypt_data st.sec vf.credentials now).1 = none) :
    load_credentials st now = ((∅ : CredMap), st) := by
  obtain ⟨k, hk⟩ := session_key_of_valid hv
  rw [decrypt_data_ok vf.credentials hv hk] at hd
  simp only at hd
  simp only [load_credentials, is_session_valid_of_true hv, hf,
    decrypt_data_ok vf.credentials hv hk, hd]
  rw [← hf]

/-- Witness for `load_credentials_on_decrypt_failure`: loading from the
corrupt vault `stCorrupt` at time 0 yields the empty map and leaves the
state unchanged. -/
theorem load_credentials_on_decrypt_failure_witness :
    load_credentials stCorrupt 0 = ((∅ : CredMap), stCorrupt) :=
  load_credentials_on_decrypt_failure stCorrupt
    ⟨⟨1, hash_master_password "correct horse" 2, 0⟩, .corrupt⟩ 0
    rfl (by decide) (by decide)

/-! ### Dictionary lemmas and operation characterizations -/

theorem dictGet_set_self (m : CredMap) (k : String) (v : Credential) :
    dictGet (dictSet m k v) k = some v := by
  induction m with
  | nil => simp [dictSet, dictGet]
  | cons hd tl ih =>
    obtain ⟨k₂, v₂⟩ := hd
    by_cases h : k = k₂
    · simp [dictSet, dictGet, h]
    · simp [dictSet, dictGet, h, ih]

theorem dictGet_set_ne (m : CredMap) (k j : String) (v : Credential)
    (h : j ≠ k) : dictGet (dictSet m k v) j = dictGet m j := by
  induction m with
  | nil => simp [dictSet, dictGet, h]
  | cons hd tl ih =>
    obtain ⟨k₂, v₂⟩ := hd
    by_cases hk₂ : k = k₂
    · subst hk₂
      simp [dictSet, dictGet, h]
    · by_cases hj : j = k₂
      · simp [dictSet, dictGet, hk₂, hj]
      · simp [dictSet, dictGet, hk₂, hj, ih]

theorem load_credentials_ok {st : VaultState} {vf : VaultFile} {k : FKey}
    {m : CredMap} {now : Nat} (hf : st.file = some vf)
    (hk : st.sec.session_key = some k)
    (hv : (is_session_valid st.sec now).1 = true)
    (hm : fernet_decrypt k vf.credentials = some m) :
    load_credentials st now =
      (m, { st with sec := update_activity st.sec now }) := by
  simp only [load_credentials, is_session_valid_of_true hv, hf,
    decrypt_data_ok vf.credentials hv hk, hm]

/-- The vault file with its encrypted blob replaced
(`vault_data['credentials'] = encrypted_credentials`). -/
def storeBlob (vf : VaultFile) (k : FKey) (m₂ : CredMap) : VaultFile :=
  { vf with credentials := EncData.blob k m₂ }

theorem save_credentials_touched {st : VaultState} {vf : VaultFile}
    {k : FKey} (hf : st.file = some vf)
    (hk : st.sec.session_key = some k) (m₂ : CredMap) (now : Nat) :
    save_credentials { st with sec := update_activity st.sec now } m₂ now =
      (true,
        { st with
          file := some (storeBlob vf k m₂)
          sec := update_activity st.sec now }) := by
  have hv₂ : (is_session_valid (update_activity st.sec now) now).1 = true := by
    rw [is_session_valid_touch now hk]
  simp only [save_credentials, is_session_valid_of_true hv₂,
    encrypt_data_ok m₂ hv₂ hk, hf, storeBlob]
  rfl

theorem get_credential_found {st : VaultState} {vf : VaultFile} {k : FKey}
    {m : CredMap} {now : Nat} (credential_id : String) (c : Credential)
    (hf : st.file = some vf) (hk : st.sec.session_key = some k)
    (hv : (is_session_valid st.sec now).1 = true)
    (hm : fernet_decrypt k vf.credentials = some m)
    (hc : dictGet m credential_id = some c) :
    get_credential st credential_id now =
      (some c,
        { st with
          sec := update_activity st.sec now
          audit_logs :=
            log_action st.audit_logs (viewEntry credential_id c now) }) := by
  simp only [get_credential, is_session_valid_of_true hv,
    load_credentials_ok hf hk hv hm, hc]

theorem get_credential_notfound {st : VaultState} {vf : VaultFile}
    {k : FKey} {m : CredMap} {now : Nat} (credential_id : String)
    (hf : st.file = some vf) (hk : st.sec.session_key = some k)
    (hv : (is_session_valid st.sec now).1 = true)
    (hm : fernet_decrypt k vf.credentials = some m)
    (hc : dictGet m credential_id = none) :
    get_credential st credential_id now =
      (none, { st with sec := update_activity st.sec now }) := by
  simp only [get_credential, is_session_valid_of_true hv,
    load_credentials_ok hf hk hv hm, hc]

theorem add_credential_ok {st : VaultState} {vf : VaultFile} {k : FKey}
    {m : CredMap} {now : Nat} (credential_data : CredentialCreate)
    (newId : String) (hf : st.file = some vf)
    (hk : st.sec.session_key = some k)
    (hv : (is_session_valid st.sec now).1 = true)
    (hm : fernet_decrypt k vf.credentials = some m) :
    add_credential st credential_data newId now =
      (some newId,
        { st with
          file := some (storeBlob vf k
            (dictSet m newId (mkAdded credential_data newId now)))
          sec := update_activity st.sec now
          audit_logs :=
            log_action st.audit_logs (addEntry credential_data newId now) }) := by
  simp only [add_credential, is_session_valid_of_true hv,
    load_credentials_ok hf hk hv hm, save_credentials_touched hf hk,
    if_true]

theorem update_credential_found {st : VaultState} {vf : VaultFile}
    {k : FKey} {m : CredMap} {now : Nat} (credential_id : String)
    (c : Credential) (u : CredentialUpdate) (hf : st.file = some vf)
    (hk : st.sec.session_key = some k)
    (hv : (is_session_valid st.sec now).1 = true)
    (hm : fernet_decrypt k vf.credentials = some m)
    (hc : dictGet m credential_id = some c) :
    update_credential st credential_id u now =
      (true,
        { st with
          file := some (storeBlob vf k (dictSet m credential_id
            { apply_update c u with updated_at := now }))
          sec := update_activity st.sec now
          audit_logs := log_action st.audit_logs (updateEntry credential_id
            { apply_update c u with updated_at := now } u now) }) := by
  simp only [update_credential, is_session_valid_of_true hv,
    load_credentials_ok hf hk hv hm, hc, save_credentials_touched hf hk,
    if_true]

theorem update_credential_notfound {st : VaultState} {vf : VaultFile}
    {k : FKey} {m : CredMap} {now : Nat} (credential_id : String)
    (u : CredentialUpdate) (hf : st.file = some vf)
    (hk : st.sec.session_key = some k)
    (hv : (is_session_valid st.sec now).1 = true)
    (hm : fernet_decrypt k vf.credentials = some m)
    (hc : dictGet m credential_id = none) :
    update_credential st credential_id u now =
      (false, { st with sec := update_activity st.sec now }) := by
  simp only [update_credential, is_session_valid_of_true hv,
    load_credentials_ok hf hk hv hm, hc]

theorem delete_credential_found {st : VaultState} {vf : VaultFile}
    {k : FKey} {m : CredMap} {now : Nat} (credential_id : String)
    (c : Credential) (hf : st.file = some vf)
    (hk : st.sec.session_key = some k)
    (hv : (is_session_valid st.sec now).1 = true)
    (hm : fernet_decrypt k vf.credentials = some m)
    (hc : dictGet m credential_id = some c) :
    delete_credential st credential_id now =
      (true,
        { st with
          file := some (storeBlob vf k (dictDel m credential_id))
          sec := update_activity st.sec now
          audit_logs :=
            log_action st.audit_logs (deleteEntry credential_id c now) }) := by
  simp only [delete_credential, is_session_valid_of_true hv,
    load_credentials_ok hf hk hv hm, hc, save_credentials_touched hf hk,
    if_true]

theorem delete_credential_notfound {st : VaultState} {vf : VaultFile}
    {k : FKey} {m : CredMap} {now : Nat} (credential_id : String)
    (hf : st.file = some vf) (hk : st.sec.session_key = some k)
    (hv : (is_session_valid st.sec now).1 = true)
    (hm : fernet_decrypt k vf.credentials = some m)
    (hc : dictGet m credential_id = none) :
    delete_credential st credential_id now =
      (false, { st with sec := update_activity st.sec now }) := by
  simp only [delete_credential, is_session_valid_of_true hv,
    load_credentials_ok hf hk hv hm, hc]

theorem search_credentials_eq {st : VaultState} {vf : VaultFile}
    {k : FKey} {m : CredMap} {now : Nat} (query : Option String)
    (tags : Option (List String)) (hf : st.file = some vf)
    (hk : st.sec.session_key = some k)
    (hv : (is_session_valid st.sec now).1 = true)
    (hm : fernet_decrypt k vf.credentials = some m) :
    search_credentials st query tags now =
      ((dictValues m).filter (fun c => search_match c query tags),
        { st with
          sec := update_activity st.sec now
          audit_logs := log_action st.audit_logs (searchEntry query tags
            ((dictValues m).filter
              (fun c => search_match c query tags)).length now) }) := by
  simp only [search_credentials, is_session_valid_of_true hv,
    load_credentials_ok hf hk hv hm]

/-! ### C4: audit logging per operation -/

/-- Counterexample to C4: under a valid session over the (intact, empty)
vault, a `get` on a missing id — a NotFound outcome — appends no audit
entry at all, where the claim requires exactly one. -/
theorem audit_counterexample :
    (get_credential stEmptyVault "missing" 0).1 = none ∧
    (get_credential stEmptyVault "missing" 0).2.audit_logs = [] ∧
    stEmptyVault.audit_logs = [] := by
  refine ⟨by decide, by decide, rfl⟩

/-- Amended C4: under a valid session with a decryptable blob, `add`,
`get`, `update`, `delete` and `search` append exactly one audit entry on
their success paths (for `get`, when the id is found; for `add`, when the
save succeeds; `search` always), but the NotFound outcomes of `get`,
`update` and `delete` return without appending any entry. -/
theorem audit_logging_per_operation {st : VaultState} {vf : VaultFile}
    {k : FKey} {m : CredMap} {now : Nat} (hf : st.file = some vf)
    (hk : st.sec.session_key = some k)
    (hv : (is_session_valid st.sec now).1 = true)
    (hm : fernet_decrypt k vf.credentials = some m) :
    (∀ credential_id c, dictGet m credential_id = some c →
      (get_credential st credential_id now).2.audit_logs =
        log_action st.audit_logs (viewEntry credential_id c now)) ∧
    (∀ credential_id, dictGet m credential_id = none →
      (get_credential st credential_id now).1 = none ∧
      (get_credential st credential_id now).2.audit_logs =
        st.audit_logs) ∧
    (∀ credential_data newId,
      (add_credential st credential_data newId now).2.audit_logs =
        log_action st.audit_logs (addEntry credential_data newId now)) ∧
    (∀ credential_id c u, dictGet m credential_id = some c →
      (update_credential st credential_id u now).2.audit_logs =
        log_action st.audit_logs (updateEntry credential_id
          { apply_update c u with updated_at := now } u now)) ∧
    (∀ credential_id u, dictGet m credential_id = none →
      (update_credential st credential_id u now).1 = false ∧
      (update_credential st credential_id u now).2.audit_logs =
        st.audit_logs) ∧
    (∀ credential_id c, dictGet m credential_id = some c →
      (delete_credential st credential_id now).2.audit_logs =
        log_action st.audit_logs (deleteEntry credential_id c now)) ∧
    (∀ credential_id, dictGet m credential_id = none →
      (delete_credential st credential_id now).1 = false ∧
      (delete_credential st credential_id now).2.audit_logs =
        st.audit_logs) ∧
    (∀ query tags,
      (search_credentials st query tags now).2.audit_logs =
        log_action st.audit_logs (searchEntry query tags
          ((dictValues m).filter
            (fun c => search_match c query tags)).length now)) := by
  refine ⟨?_, ?_, ?_, ?_, ?_, ?_, ?_, ?_⟩
  · intro credential_id c hc
    rw [get_credential_found credential_id c hf hk hv hm hc]
  · intro credential_id hc
    rw [get_credential_notfound credential_id hf hk hv hm hc]
    exact ⟨rfl, rfl⟩
  · intro credential_data newId
    rw [add_credential_ok credential_data newId hf hk hv hm]
  · intro credential_id c u hc
    rw [update_credential_found credential_id c u hf hk hv hm hc]
  · intro credential_id u hc
    rw [update_credential_notfound credential_id u hf hk hv hm hc]
    exact ⟨rfl, rfl⟩
  · intro credential_id c hc
    rw [delete_credential_found credential_id c hf hk hv hm hc]
  · intro credential_id hc
    rw [delete_credential_notfound credential_id hf hk hv hm hc]
    exact ⟨rfl, rfl⟩
  · intro query tags
    rw [search_credentials_eq query tags hf hk hv hm]

/-- Witness for `audit_logging_per_operation`: over the intact empty
vault, a search appends exactly its one SEARCH_CREDENTIALS entry. -/
theorem audit_logging_per_operation_witness :
    (search_credentials stEmptyVault none none 0).2.audit_logs =
      log_action stEmptyVault.audit_logs (searchEntry none none 0 0) :=
  (audit_logging_per_operation
    (show stEmptyVault.file = some vf₀ from rfl)
    (show stEmptyVault.sec.session_key =
      some (derive_key "correct horse" 1) from rfl)
    (by decide)
    (show fernet_decrypt (derive_key "correct horse" 1) vf₀.credentials =
      some ([] : CredMap) by decide)).2.2.2.2.2.2.2 none none

/-! ### C6: add/get round-trip -/

/-- C6: under a valid session with a decryptable blob, adding a record
and getting it back by the returned id yields a record whose
service_name, username, password, notes and tags equal those supplied,
with `created_at = updated_at = now` at creation. -/
theorem add_then_get_roundtrip {st : VaultState} {vf : VaultFile}
    {k : FKey} {m : CredMap} (credential_data : CredentialCreate)
    (newId : String) (now : Nat) (hf : st.file = some vf)
    (hk : st.sec.session_key = some k)
    (hv : (is_session_valid st.sec now).1 = true)
    (hm : fernet_decrypt k vf.credentials = some m) :
    (add_credential st credential_data newId now).1 = some newId ∧
    ∃ c, (get_credential (add_credential st credential_data newId now).2
        newId now).1 = some c ∧
      c.service_name = credential_data.service_name ∧
      c.username = credential_data.username ∧
      c.password = credential_data.password ∧
      c.notes = credential_data.notes ∧
      c.tags = credential_data.tags ∧
      c.created_at = now ∧ c.updated_at = now ∧
      c.updated_at = c.created_at := by
  refine ⟨?_, mkAdded credential_data newId now, ?_,
    rfl, rfl, rfl, rfl, rfl, rfl, rfl, rfl⟩
  · rw [add_credential_ok credential_data newId hf hk hv hm]
  · have hadd := add_credential_ok credential_data newId hf hk hv hm
    simp only [hadd]
    have hget := @get_credential_found
      { st with
        file := some (storeBlob vf k
          (dictSet m newId (mkAdded credential_data newId now)))
        sec := update_activity st.sec now
        audit_logs :=
          log_action st.audit_logs (addEntry credential_data newId now) }
      (storeBlob vf k (dictSet m newId (mkAdded credential_data newId now)))
      k (dictSet m newId (mkAdded credential_data newId now)) now
      newId (mkAdded credential_data newId now)
      rfl hk (by rw [is_session_valid_touch now hk])
      (by simp [storeBlob, fernet_decrypt])
      (dictGet_set_self m newId (mkAdded credential_data newId now))
    rw [hget]

/-- The concrete record payload used by witnesses. -/
def cc₀ : CredentialCreate := ⟨"Example", "alice", "p@ss", none, []⟩

/-- Witness for `add_then_get_roundtrip` at the intact empty vault. -/
theorem add_then_get_roundtrip_witness :
    (add_credential stEmptyVault cc₀ "id-1" 0).1 = some "id-1" ∧
    ∃ c, (get_credential (add_credential stEmptyVault cc₀ "id-1" 0).2
        "id-1" 0).1 = some c ∧
      c.service_name = cc₀.service_name ∧
      c.username = cc₀.username ∧
      c.password = cc₀.password ∧
      c.notes = cc₀.notes ∧
      c.tags = cc₀.tags ∧
      c.created_at = 0 ∧ c.updated_at = 0 ∧
      c.updated_at = c.created_at :=
  add_then_get_roundtrip cc₀ "id-1" 0
    (show stEmptyVault.file = some vf₀ from rfl)
    (show stEmptyVault.sec.session_key =
      some (derive_key "correct horse" 1) from rfl)
    (by decide)
    (show fernet_decrypt (derive_key "correct horse" 1) vf₀.credentials =
      some ([] : CredMap) by decide)

/-! ### C7: search semantics -/

/-- Modelled from the claim's words (spec §4.5 `search`): a record
matches iff, when a query is supplied, the query is a case-insensitive
substring of the record's service name, username, or notes, and, when a
tags list is supplied, at least one supplied tag is in the record's tag
set; the filters compose with AND and an absent filter passes
everything. -/
def spec_search_match (c : Credential) (query : Option String)
    (tags : Option (List String)) : Bool :=
  (match query with
   | none => true
   | some q =>
     strContains c.service_name.toLower q.toLower ||
     strContains c.username.toLower q.toLower ||
     (match c.notes with
      | none => false
      | some nt => strContains nt.toLower q.toLower)) &&
  (match tags with
   | none => true
   | some ts => ts.any (fun tag => c.tags.contains tag))

theorem toLower_data (s : String) :
    (s.toLower).data = s.data.map Char.toLower := by
  unfold String.toLower
  rw [String.map_eq]

theorem toLower_ne_nil {q : String} (h : q ≠ "") :
    (q.toLower).data ≠ [] := by
  rw [toLower_data]
  obtain ⟨l⟩ := q
  cases l with
  | nil => exact absurd (by decide) h
  | cons c cs => simp

theorem listInfix_nil (l : List Char) : listInfix [] l = true := by
  cases l <;> simp [listInfix, List.isPrefixOf]

theorem strContains_empty_pat (hay : String) :
    strContains hay ("".toLower) = true := by
  unfold strContains
  rw [show (("" : String).toLower).data = [] from by rw [toLower_data]; rfl]
  exact listInfix_nil hay.data

theorem strContains_empty_hay {q : String} (hq : q ≠ "") :
    strContains ("".toLower) (q.toLower) = false := by
  unfold strContains
  rw [show (("" : String).toLower).data = [] from by rw [toLower_data]; rfl]
  unfold listInfix
  cases hdata : (q.toLower).data with
  | nil => exact absurd hdata (toLower_ne_nil hq)
  | cons c cs => simp

theorem if_eq_and (b x : Bool) : (if b = true then x else false) = (b && x) := by
  cases b <;> simp

/-- The per-record code filter agrees with the claim's filter whenever
the supplied tags list is not the (falsy) empty list. -/
theorem search_match_eq_spec (c : Credential) (query : Option String)
    (tags : Option (List String))
    (ht : tags ≠ some ([] : List String)) :
    search_match c query tags = spec_search_match c query tags := by
  obtain ⟨id, sname, uname, pwd, notes, ca, ua, ctags⟩ := c
  cases query with
  | none =>
    cases tags with
    | none => rfl
    | some ts =>
      cases ts with
      | nil => exact absurd rfl ht
      | cons t ts₂ => simp [search_match, spec_search_match]
  | some q =>
    by_cases hq : q = ""
    · subst hq
      cases tags with
      | none =>
        simp [search_match, spec_search_match, strContains_empty_pat]
      | some ts =>
        cases ts with
        | nil => exact absurd rfl ht
        | cons t ts₂ =>
          simp [search_match, spec_search_match, strContains_empty_pat]
    · cases notes with
      | none =>
        cases tags with
        | none => simp [search_match, spec_search_match, hq, if_eq_and]
        | some ts =>
          cases ts with
          | nil => exact absurd rfl ht
          | cons t ts₂ =>
            simp [search_match, spec_search_match, hq, if_eq_and]
      | some nt =>
        by_cases hnt : nt = ""
        · subst hnt
          cases tags with
          | none =>
            simp [search_match, spec_search_match, hq, if_eq_and,
              strContains_empty_hay hq]
          | some ts =>
            cases ts with
            | nil => exact absurd rfl ht
            | cons t ts₂ =>
              simp [search_match, spec_search_match, hq, if_eq_and,
                strContains_empty_hay hq]
        · cases tags with
          | none => simp [search_match, spec_search_match, hq, hnt, if_eq_and]
          | some ts =>
            cases ts with
            | nil => exact absurd rfl ht
            | cons t ts₂ =>
              simp [search_match, spec_search_match, hq, hnt, if_eq_and]

/-- A vault state holding exactly one credential (no tags) under a live
session. -/
def cred₁ : Credential := ⟨"id1", "Example", "alice", "p@ss", none, 0, 0, []⟩

/-- The one-record credential map of `stOne`. -/
def mOne : CredMap := [("id1", cred₁)]

/-- The vault state whose blob encrypts `mOne` under the live session
key. -/
def stOne : VaultState :=
  ⟨some ⟨⟨1, hash_master_password "correct horse" 2, 0⟩,
    .blob (derive_key "correct horse" 1) mOne⟩, secLive, []⟩

/-- Counterexample to C7: searching with a supplied — but empty — tags
list returns every record (Python truthiness disables the filter), while
the claim's filter ("at least one supplied tag is in the record's tag
set") returns none. -/
theorem search_counterexample :
    (search_credentials stOne none (some []) 0).1 = [cred₁] ∧
    (dictValues mOne).filter
      (fun c => spec_search_match c none (some [])) = [] := by
  refine ⟨by decide, by decide⟩

/-- Amended C7: under a valid session with a decryptable blob, and
whenever the supplied tags list is not the empty list (which Python
treats as absent, disabling the filter), search returns exactly the
records matching the claim's filter: case-insensitive substring of
service name, username or notes for the query; at least one overlapping
tag; AND composition; everything when both filters are absent. -/
theorem search_matches_spec_filter {st : VaultState} {vf : VaultFile}
    {k : FKey} {m : CredMap} {now : Nat} (query : Option String)
    (tags : Option (List String)) (hf : st.file = some vf)
    (hk : st.sec.session_key = some k)
    (hv : (is_session_valid st.sec now).1 = true)
    (hm : fernet_decrypt k vf.credentials = some m)
    (ht : tags ≠ some ([] : List String)) :
    (search_credentials st query tags now).1 =
      (dictValues m).filter (fun c => spec_search_match c query tags) := by
  rw [search_credentials_eq query tags hf hk hv hm]
  simp only
  congr 1
  funext c
  exact search_match_eq_spec c query tags ht

/-- Witness for `search_matches_spec_filter`: over the one-record vault,
the query "exam" finds the record and the tag filter ["work"] rejects
it, matching the claim's filter on both. -/
theorem search_matches_spec_filter_witness :
    (search_credentials stOne (some "exam") none 0).1 =
      (dictValues mOne).filter
        (fun c => spec_search_match c (some "exam") none) ∧
    (search_credentials stOne none (some ["work"]) 0).1 =
      (dictValues mOne).filter
        (fun c => spec_search_match c none (some ["work"])) := by
  constructor
  · exact search_matches_spec_filter (some "exam") none
      (show stOne.file = some ⟨⟨1, hash_master_password "correct horse" 2,
        0⟩, .blob (derive_key "correct horse" 1) mOne⟩ from rfl)
      (show stOne.sec.session_key =
        some (derive_key "correct horse" 1) from rfl)
      (by decide)
      (show fernet_decrypt (derive_key "correct horse" 1)
        (EncData.blob (derive_key "correct horse" 1) mOne) =
        some mOne by decide)
      (by simp)
  · exact search_matches_spec_filter none (some ["work"])
      (show stOne.file = some ⟨⟨1, hash_master_password "correct horse" 2,
        0⟩, .blob (derive_key "correct horse" 1) mOne⟩ from rfl)
      (show stOne.sec.session_key =
        some (derive_key "correct horse" 1) from rfl)
      (by decide)
      (show fernet_decrypt (derive_key "correct horse" 1)
        (EncData.blob (derive_key "correct horse" 1) mOne) =
        some mOne by decide)
      (by simp)

/-! ### C10: update with no supplied fields -/

theorem apply_update_empty (c : Credential) :
    apply_update c emptyUpdate = c := rfl

/-- C10: under a valid session with a decryptable blob, updating an
existing id with an update supplying no fields still succeeds: it
returns ok, persists the map with only that record's `updated_at` bumped
to `now`, and leaves every other field of the record — and every other
record — unchanged. -/
theorem update_with_no_fields {st : VaultState} {vf : VaultFile}
    {k : FKey} {m : CredMap} {now : Nat} (credential_id : String)
    (c : Credential) (hf : st.file = some vf)
    (hk : st.sec.session_key = some k)
    (hv : (is_session_valid st.sec now).1 = true)
    (hm : fernet_decrypt k vf.credentials = some m)
    (hc : dictGet m credential_id = some c) :
    (update_credential st credential_id emptyUpdate now).1 = true ∧
    (update_credential st credential_id emptyUpdate now).2.file =
      some (storeBlob vf k
        (dictSet m credential_id { c with updated_at := now })) ∧
    dictGet (dictSet m credential_id { c with updated_at := now })
      credential_id = some { c with updated_at := now } ∧
    (∀ j, j ≠ credential_id →
      dictGet (dictSet m credential_id { c with updated_at := now }) j =
        dictGet m j) ∧
    ({ c with updated_at := now }).service_name = c.service_name ∧
    ({ c with updated_at := now }).username = c.username ∧
    ({ c with updated_at := now }).password = c.password ∧
    ({ c with updated_at := now }).notes = c.notes ∧
    ({ c with updated_at := now }).tags = c.tags ∧
    ({ c with updated_at := now }).created_at = c.created_at ∧
    ({ c with updated_at := now }).updated_at = now := by
  have h := update_credential_found credential_id c emptyUpdate
    hf hk hv hm hc
  rw [apply_update_empty] at h
  refine ⟨by rw [h], by rw [h],
    dictGet_set_self m credential_id { c with updated_at := now },
    fun j hj => dictGet_set_ne m credential_id j
      { c with updated_at := now } hj,
    rfl, rfl, rfl, rfl, rfl, rfl, rfl⟩

/-- Witness for `update_with_no_fields`: the empty update on the
one-record vault succeeds and persists only the bumped `updated_at`. -/
theorem update_with_no_fields_witness :
    (update_credential stOne "id1" emptyUpdate 7).1 = true ∧
    (update_credential stOne "id1" emptyUpdate 7).2.file =
      some (storeBlob ⟨⟨1, hash_master_password "correct horse" 2, 0⟩,
        .blob (derive_key "correct horse" 1) mOne⟩
        (derive_key "correct horse" 1)
        (dictSet mOne "id1" { cred₁ with updated_at := 7 })) := by
  have h := update_with_no_fields "id1" cred₁
    (show stOne.file = some ⟨⟨1, hash_master_password "correct horse" 2,
      0⟩, .blob (derive_key "correct horse" 1) mOne⟩ from rfl)
    (show stOne.sec.session_key =
      some (derive_key "correct horse" 1) from rfl)
    (show (is_session_valid stOne.sec 7).1 = true by decide)
    (show fernet_decrypt (derive_key "correct horse" 1)
      (EncData.blob (derive_key "correct horse" 1) mOne) =
      some mOne by decide)
    (show dictGet mOne "id1" = some cred₁ by decide)
  exact ⟨h.1, h.2.1⟩

end CredMgr
